import Mathlib

/-!
Shallow embedding of the rl-autoscale metrics instrumentation core
(src/rl_autoscale/metrics.py, flask_middleware.py, fastapi_middleware.py).

Python floats are modelled as rationals; Python exceptions as Option/Except
values; the mutable Prometheus store as an explicit state / event trace.
-/

namespace RLAutoscale

/-! ## Histogram model

Modelled from the spec: the histogram mutation semantics live in the external
prometheus-client library (not part of this repository). Spec section 3 says a
histogram is a fixed ascending bucket-bound sequence plus an implicit +infinity
bucket; each observation increments the cumulative count of every bucket whose
bound is greater than or equal to the observed value and accumulates a running
sum. Counts are kept cumulative here, one entry per configured bound, plus a
separate +infinity count. -/
structure Histogram where
  buckets : List ℚ
  counts : List ℕ
  infCount : ℕ
  sum : ℚ
deriving DecidableEq

/-- Fresh histogram for a configured bucket-bound list: all counts zero. -/
def Histogram.fresh (bs : List ℚ) : Histogram :=
  { buckets := bs, counts := bs.map (fun _ => 0), infCount := 0, sum := 0 }

/-- One observation: every cumulative bucket count with bound at least v is
incremented, the +infinity count is incremented, and v is added to the sum. -/
def Histogram.observe (h : Histogram) (v : ℚ) : Histogram :=
  { h with
    counts := List.zipWith (fun b c => if v ≤ b then c + 1 else c) h.buckets h.counts
    infCount := h.infCount + 1
    sum := h.sum + v }

/-! ## Error classification (metrics.py, observe_request lines 187-192) -/

/-- Embedding of the error-type classification computed inside
RLMetrics.observe_request: client_error for 400-499, server_error for
at least 500, none otherwise. -/
def error_type (status_code : ℤ) : String :=
  if 400 ≤ status_code ∧ status_code < 500 then "client_error"
  else if 500 ≤ status_code then "server_error"
  else "none"

/-! ## Metric mutation events

A request produces a trace of mutations against the shared metric store.
This trace is what the middleware embeddings below emit. -/

inductive MetricEvent
  | incInProgress (method : String)
  | decInProgress (method : String)
  | observeLatency (method path : String) (v : ℚ)
  | incCounter (method path http_status err : String)
  | observeSize (method path : String) (v : ℚ)
deriving DecidableEq

/-! ## observe_request (metrics.py lines 168-203)

The Python body is a try/except: the latency observation, the counter
increment, and (when response_size is not None) the size observation run in
sequence; any exception raised by one of them aborts the remaining mutations
and is caught at the boundary, logged and discarded. The possible failure of
each underlying store mutation is passed in as an Option String (none means
the mutation succeeds, some e means it raises e). -/

structure ObserveOutcome where
  events : List MetricEvent
  logged : Option String
deriving DecidableEq

def observe_request (latR cntR szR : Option String)
    (method path : String) (duration : ℚ) (status_code : ℤ)
    (response_size : Option ℤ) : ObserveOutcome :=
  match latR with
  | some e => { events := [], logged := some e }
  | none =>
    let e1 := MetricEvent.observeLatency method path duration
    match cntR with
    | some e => { events := [e1], logged := some e }
    | none =>
      let e2 := MetricEvent.incCounter method path (toString status_code)
        (error_type status_code)
      match response_size with
      | none => { events := [e1, e2], logged := none }
      | some n =>
        match szR with
        | some e => { events := [e1, e2], logged := some e }
        | none =>
          { events := [e1, e2, MetricEvent.observeSize method path (n : ℚ)]
            logged := none }

/-! ## Metric store state and event application -/

structure MetricsState where
  latency : String × String → Histogram
  counters : String × String × String × String → ℕ
  inProgress : String → ℤ
  sizeHist : String × String → Histogram

def applyEvent (st : MetricsState) : MetricEvent → MetricsState
  | .incInProgress m =>
      { st with inProgress := Function.update st.inProgress m (st.inProgress m + 1) }
  | .decInProgress m =>
      { st with inProgress := Function.update st.inProgress m (st.inProgress m - 1) }
  | .observeLatency m p v =>
      { st with latency := Function.update st.latency (m, p) ((st.latency (m, p)).observe v) }
  | .incCounter m p s e =>
      { st with counters := Function.update st.counters (m, p, s, e) (st.counters (m, p, s, e) + 1) }
  | .observeSize m p v =>
      { st with sizeHist := Function.update st.sizeHist (m, p) ((st.sizeHist (m, p)).observe v) }

def applyEvents (st : MetricsState) : List MetricEvent → MetricsState
  | [] => st
  | e :: evs => applyEvents (applyEvent st e) evs

/-! ## In-progress gauge accounting -/

def isInc (m : String) : MetricEvent → Bool
  | .incInProgress m' => m' == m
  | _ => false

def isDec (m : String) : MetricEvent → Bool
  | .decInProgress m' => m' == m
  | _ => false

def incCount (m : String) (evs : List MetricEvent) : ℕ := evs.countP (isInc m)

def decCount (m : String) (evs : List MetricEvent) : ℕ := evs.countP (isDec m)

/-- Value of the in-progress gauge for a method after a trace of events,
starting from zero. -/
def gaugeValue (m : String) : List MetricEvent → ℤ
  | [] => 0
  | e :: evs =>
      (if isInc m e then 1 else if isDec m e then -1 else 0) + gaugeValue m evs

/-- Calls are properly paired when no prefix of the trace has more decrements
than increments for the method. -/
def paired (m : String) (evs : List MetricEvent) : Prop :=
  ∀ n, n ≤ evs.length → decCount m (evs.take n) ≤ incCount m (evs.take n)

/-! ## Python int() and Content-Length extraction

The middleware reads the Content-Length header as a string and converts it
with int(), swallowing ValueError. The conversion is modelled for the
ASCII-decimal strings a Content-Length header can carry (an optional sign
followed by digits); other Python int() niceties such as surrounding
whitespace or underscores are not modelled. -/

def digitsToNat (ds : List Char) : ℕ :=
  ds.foldl (fun acc c => acc * 10 + (c.toNat - '0'.toNat)) 0

def pythonInt (s : String) : Option ℤ :=
  match s.toList with
  | '-' :: ds =>
      if ds ≠ [] ∧ ds.all Char.isDigit then some (-(digitsToNat ds : ℤ)) else none
  | '+' :: ds =>
      if ds ≠ [] ∧ ds.all Char.isDigit then some (digitsToNat ds : ℤ) else none
  | ds =>
      if ds ≠ [] ∧ ds.all Char.isDigit then some (digitsToNat ds : ℤ) else none

/-- FastAPI middleware (fastapi_middleware.py lines 69-76): the header value,
when present and truthy, is parsed with int(); a ValueError leaves
response_size as None. There is no fallback to a body length. -/
def parseContentLength (cl : Option String) : Option ℤ :=
  match cl with
  | none => none
  | some s => if s = "" then none else pythonInt s

/-- Flask middleware (flask_middleware.py lines 136-145): a truthy
Content-Length header is parsed with int() (ValueError leaves the size None,
with no fallback); when the header is absent or empty, a nonempty
response.data provides the size instead. -/
def flaskResponseSize (cl : Option String) (dataLen : ℕ) : Option ℤ :=
  match cl with
  | some s =>
      if s ≠ "" then pythonInt s
      else if dataLen ≠ 0 then some (dataLen : ℤ) else none
  | none => if dataLen ≠ 0 then some (dataLen : ℤ) else none

/-! ## Path normalization step shared by both middleware adapters

A user-supplied normalizer may raise; on failure the original path is kept
and a warning is logged (flask_middleware.py lines 126-130,
fastapi_middleware.py lines 63-67). -/

def normalizeStep (normalizer : Option (String → Except String String))
    (path : String) : String × List String :=
  match normalizer with
  | none => (path, [])
  | some f =>
    match f path with
    | .ok p => (p, [])
    | .error e => (path, ["Path normalizer failed for " ++ path ++ ": " ++ e])

/-! ## Middleware adapters -/

/-- Failure behavior of the three store mutations performed by
observe_request during one request (none means success). -/
structure MutBeh where
  latR : Option String
  cntR : Option String
  szR : Option String
deriving DecidableEq

/-- Mutation behavior in which every store mutation succeeds. -/
def behOk : MutBeh := ⟨none, none, none⟩

structure HttpRequest where
  method : String
  path : String
deriving DecidableEq

structure FAResponse where
  status_code : ℤ
  contentLength : Option String
deriving DecidableEq

structure FLResponse where
  status_code : ℤ
  contentLength : Option String
  dataLen : ℕ
deriving DecidableEq

/-- Result of one request passing through a middleware adapter: the metric
mutation trace, the warnings and errors logged, and what the adapter hands
back to the framework (for FastAPI an exception from call_next propagates). -/
structure MwResult (ρ : Type) where
  events : List MetricEvent
  warnings : List String
  errorsLogged : List String
  response : Except String ρ

/-- Embedding of RLMetricsMiddleware.dispatch (fastapi_middleware.py lines
42-93). Excluded paths return immediately with no metric activity. Otherwise
the in-progress gauge is incremented, call_next runs (outcome), and the
decrement sits in a finally block so it fires on the exception path too; on
success the path is normalized (with raw-path fallback), the Content-Length
is parsed, and observe_request records the request. -/
def fastapiDispatch (excludePaths : List String)
    (normalizer : Option (String → Except String String)) (beh : MutBeh)
    (req : HttpRequest) (duration : ℚ)
    (outcome : Except String FAResponse) : MwResult FAResponse :=
  if req.path ∈ excludePaths then
    { events := [], warnings := [], errorsLogged := [], response := outcome }
  else
    match outcome with
    | .error e =>
        { events := [.incInProgress req.method, .decInProgress req.method]
          warnings := [], errorsLogged := [], response := .error e }
    | .ok resp =>
        let pw := normalizeStep normalizer req.path
        let rs := parseContentLength resp.contentLength
        let obs := observe_request beh.latR beh.cntR beh.szR
          req.method pw.1 duration resp.status_code rs
        { events := .incInProgress req.method ::
            (obs.events ++ [.decInProgress req.method])
          warnings := pw.2
          errorsLogged := obs.logged.toList
          response := .ok resp }

/-- Embedding of the Flask after_request handler (flask_middleware.py lines
104-159). The in-progress decrement always runs first; if no start time was
recorded the handler returns early; otherwise the path is normalized (with
raw-path fallback and a warning), the exclusion check runs on the normalized
path, the response size is extracted, and observe_request records the
request. -/
def flaskAfter (excludePaths : List String)
    (normalizer : Option (String → Except String String)) (beh : MutBeh)
    (hasStartTime : Bool) (duration : ℚ)
    (req : HttpRequest) (resp : FLResponse) : MwResult FLResponse :=
  if ¬ hasStartTime then
    { events := [.decInProgress req.method], warnings := []
      errorsLogged := [], response := .ok resp }
  else
    let pw := normalizeStep normalizer req.path
    if pw.1 ∈ excludePaths then
      { events := [.decInProgress req.method], warnings := pw.2
        errorsLogged := [], response := .ok resp }
    else
      let rs := flaskResponseSize resp.contentLength resp.dataLen
      let obs := observe_request beh.latR beh.cntR beh.szR
        req.method pw.1 duration resp.status_code rs
      { events := .decInProgress req.method :: obs.events
        warnings := pw.2
        errorsLogged := obs.logged.toList
        response := .ok resp }

/-- Embedding of a full Flask request cycle: the before_request handler
(flask_middleware.py lines 97-102) unconditionally records a start time and
increments the in-progress gauge, then the after_request handler runs with
the start time present. -/
def flaskProcess (excludePaths : List String)
    (normalizer : Option (String → Except String String)) (beh : MutBeh)
    (duration : ℚ) (req : HttpRequest) (resp : FLResponse) :
    MwResult FLResponse :=
  let a := flaskAfter excludePaths normalizer beh true duration req resp
  { a with events := .incInProgress req.method :: a.events }

/-- Default excluded paths of the Flask adapter (flask_middleware.py line 89). -/
def defaultFlaskExcludes : List String :=
  ["/health", "/healthz", "/metrics", "/readiness", "/liveness"]

/-- Default excluded paths of the FastAPI adapter (fastapi_middleware.py
lines 35-40). -/
def defaultFastapiExcludes : List String :=
  ["/health", "/metrics", "/docs", "/openapi.json"]

/-! ## RLMetrics construction and the global registry singleton
(metrics.py lines 35-166 and 232-282)

The Lean keyword clash forces the namespace field to be called namespc. The
constructor performs no validation of the bucket sequences: it only fills in
the documented defaults when a list is omitted and stores the configuration.
(The external prometheus-client library, not part of this repository, rejects
unsorted bucket lists when the Histogram objects are registered; nothing
checks bound positivity anywhere.) -/

/-- Default latency buckets, 5ms to 10s (metrics.py lines 61-74). -/
def defaultHistogramBuckets : List ℚ :=
  [0.005, 0.01, 0.025, 0.05, 0.1, 0.25, 0.5, 1.0, 2.5, 5.0, 10.0]

/-- Default response size buckets, 100B to 10MB (metrics.py lines 79-87). -/
def defaultResponseSizeBuckets : List ℚ :=
  [100, 1000, 10000, 100000, 1000000, 10000000]

/-- Metric naming pattern used throughout RLMetrics.__init__:
the namespace prefixes the base name when nonempty. -/
def metricFullName (namespc base : String) : String :=
  if namespc ≠ "" then namespc ++ "_" ++ base else base

structure RLMetrics where
  namespc : String
  histogram_buckets : List ℚ
  response_size_buckets : List ℚ
  app_name : String
  app_version : String
  infoLabels : List (String × String)
deriving DecidableEq

/-- Embedding of RLMetrics.__init__ (metrics.py lines 35-166): defaults are
substituted for omitted bucket lists, the configuration is stored, and the
app-info labels are assembled from the nonempty identity strings. No bucket
validation of any kind is performed. -/
def mkRLMetrics (namespc : String)
    (histogram_buckets response_size_buckets : Option (List ℚ))
    (app_version app_name : String) : RLMetrics :=
  { namespc := namespc
    histogram_buckets := histogram_buckets.getD defaultHistogramBuckets
    response_size_buckets := response_size_buckets.getD defaultResponseSizeBuckets
    app_name := app_name
    app_version := app_version
    infoLabels :=
      (if app_name ≠ "" then [("name", app_name)] else []) ++
      (if app_version ≠ "" then [("version", app_version)] else []) }

/-- Bucket validity as the spec words it: strictly ascending and strictly
positive bounds. -/
def validBuckets (bs : List ℚ) : Prop :=
  bs.Chain' (· < ·) ∧ ∀ b ∈ bs, 0 < b

/-- Environment-variable defaults read inside get_metrics_registry. -/
structure EnvConfig where
  nsVar : Option String
  appNameVar : Option String
  appVersionVar : Option String

/-- Arguments of one get_metrics_registry call. -/
structure RegArgs where
  namespc : Option String
  histogram_buckets : Option (List ℚ)
  response_size_buckets : Option (List ℚ)
  app_version : Option String
  app_name : Option String

/-- Embedding of get_metrics_registry (metrics.py lines 235-282) as explicit
state passing over the module-level _metrics_instance cell: when the cell is
empty the environment defaults are applied and a fresh RLMetrics is
constructed and stored; when it is already populated the stored instance is
returned untouched and the supplied arguments are ignored. -/
def get_metrics_registry (env : EnvConfig) (a : RegArgs)
    (st : Option RLMetrics) : RLMetrics × Option RLMetrics :=
  match st with
  | some m => (m, some m)
  | none =>
    let ns := a.namespc.getD (env.nsVar.getD "")
    let an := a.app_name.getD (env.appNameVar.getD "")
    let av := a.app_version.getD (env.appVersionVar.getD "")
    let m := mkRLMetrics ns a.histogram_buckets a.response_size_buckets av an
    (m, some m)

/-- Runs a sequence of get_metrics_registry calls, threading the module-level
cell, and collects the returned instances. -/
def runCalls (env : EnvConfig) :
    List RegArgs → Option RLMetrics → List RLMetrics × Option RLMetrics
  | [], st => ([], st)
  | a :: rest, st =>
    let r := get_metrics_registry env a st
    let rs := runCalls env rest r.2
    (r.1 :: rs.1, rs.2)

/-! ## normalize_api_paths (flask_middleware.py lines 169-200)

Three ordered substitution passes over the path string, each operating on the
output of the previous one. The regexes are simple enough to embed as direct
character-list scans; the \d class is modelled as the ASCII digits a URL path
carries. -/

/-- True when the list starts with an ASCII digit. -/
def digitStart : List Char → Bool
  | c :: _ => c.isDigit
  | [] => false

/-- Pass 1, re.sub(r"/\d+", "/:id", path): a left-to-right scan; at a slash
followed by a digit the slash and the maximal digit run are replaced by /:id
and the scan resumes after the run (the skipping flag carries the state of
being inside a replaced digit run). -/
def subIdAux (skipping : Bool) : List Char → List Char
  | [] => []
  | c :: rest =>
    if skipping && c.isDigit then subIdAux true rest
    else if c == '/' && digitStart rest then
      '/' :: ':' :: 'i' :: 'd' :: subIdAux true rest
    else c :: subIdAux false rest

/-- Hex-digit class of the UUID regex, case-insensitive. -/
def isHexChar (c : Char) : Bool :=
  c.isDigit || ('a' ≤ c && c ≤ 'f') || ('A' ≤ c && c ≤ 'F')

/-- Shape of the 36 characters of a UUID body: hex digits with dashes at
positions 8, 13, 18 and 23. -/
def uuidShape (l : List Char) : Bool :=
  l.length == 36 &&
  l.enum.all fun p =>
    if p.1 == 8 || p.1 == 13 || p.1 == 18 || p.1 == 23 then p.2 == '-'
    else isHexChar p.2

/-- Pass 2, the UUID substitution: at a slash followed by 36 characters of
UUID shape, the slash and those characters are replaced by /:uuid and the
scan resumes after them (skip counts the characters of a matched UUID still
to be consumed). -/
def subUuidAux (skip : ℕ) : List Char → List Char
  | [] => []
  | c :: rest =>
    match skip with
    | n + 1 => subUuidAux n rest
    | 0 =>
      if c == '/' && uuidShape (rest.take 36) then
        '/' :: ':' :: 'u' :: 'u' :: 'i' :: 'd' :: subUuidAux 36 rest
      else c :: subUuidAux 0 rest

/-- Extension-alphabet class of the filename regex. -/
def isAlnumChar (c : Char) : Bool := c.isAlpha || c.isDigit

/-- Full match of [^/]+\.[a-zA-Z0-9]+ against a slash-free segment: some dot
has a nonempty all-alphanumeric tail after it (necessarily the last dot) and
a nonempty stem before it. -/
def filenameSeg (seg : List Char) : Bool :=
  let revSeg := seg.reverse
  match revSeg.dropWhile isAlnumChar with
  | '.' :: pre => !(revSeg.takeWhile isAlnumChar).isEmpty && !pre.isEmpty
  | _ => false

/-- Pass 3, re.sub applied to the end-anchored filename regex: the match, if
any, starts at the last slash of the string, so the segment after the last
slash is tested and replaced by :filename on success. -/
def subFilename (l : List Char) : List Char :=
  let rev := l.reverse
  let seg := (rev.takeWhile (fun c => c ≠ '/')).reverse
  match rev.dropWhile (fun c => c ≠ '/') with
  | '/' :: pre =>
    if filenameSeg seg then
      pre.reverse ++ ('/' :: ':' :: 'f' :: 'i' :: 'l' :: 'e' :: 'n' :: 'a' :: 'm' :: 'e' :: [])
    else l
  | _ => l

/-- Embedding of normalize_api_paths: the three passes in source order, each
consuming the output of the previous one. -/
def normalize_api_paths (path : String) : String :=
  String.mk (subFilename (subUuidAux 0 (subIdAux false path.toList)))

/-! ## Small auxiliaries used by the statements below -/

/-- True exactly on observation-recording events: latency observation,
counter increment, size observation (not the in-progress gauge moves). -/
def isObservation : MetricEvent → Bool
  | .observeLatency .. => true
  | .incCounter .. => true
  | .observeSize .. => true
  | _ => false

/-- Concrete all-zero metric store. -/
def stZero : MetricsState :=
  { latency := fun _ => Histogram.fresh defaultHistogramBuckets
    counters := fun _ => 0
    inProgress := fun _ => 0
    sizeHist := fun _ => Histogram.fresh defaultResponseSizeBuckets }

/-! # Theorems -/

/-! ## Helper lemmas -/

theorem runCalls_saturated (env : EnvConfig) :
    ∀ (rest : List RegArgs) (m : RLMetrics),
      runCalls env rest (some m) = (rest.map fun _ => m, some m) := by
  intro rest
  induction rest with
  | nil => intro m; rfl
  | cons a rest ih =>
      intro m
      simp only [runCalls, get_metrics_registry, ih, List.map]

/-! ## C4 -/

/-- C4: the error classification of observe_request assigns client_error
exactly on 400-499, server_error exactly on at least 500, none exactly
below 400, totally over the integers, and the request counter event emitted
by observe_request carries exactly this classification together with the
stringified status code. -/
theorem C4_status_classification :
    ∀ s : ℤ,
      (error_type s = "client_error" ↔ 400 ≤ s ∧ s < 500) ∧
      (error_type s = "server_error" ↔ 500 ≤ s) ∧
      (error_type s = "none" ↔ s < 400) ∧
      (error_type s = "client_error" ∨ error_type s = "server_error" ∨
        error_type s = "none") ∧
      (∀ (m p : String) (d : ℚ) (rs : Option ℤ),
        MetricEvent.incCounter m p (toString s) (error_type s) ∈
          (observe_request none none none m p d s rs).events) := by
  intro s
  have hmem : ∀ (m p : String) (d : ℚ) (rs : Option ℤ),
      MetricEvent.incCounter m p (toString s) (error_type s) ∈
        (observe_request none none none m p d s rs).events := by
    intro m p d rs
    cases rs <;> simp [observe_request]
  refine ⟨?_, ?_, ?_, ?_, hmem⟩ <;>
    · unfold error_type
      split_ifs with h1 h2 <;> simp_all <;> omega

/-! ## C3 -/

/-- C3: after a first get_metrics_registry call populates the module cell,
every later call in any sequence, whatever configuration it supplies,
returns exactly the first instance and leaves the cell untouched; the
instance keeps the configuration of the first call (argument over
environment over built-in default). -/
theorem C3_singleton_idempotent (env : EnvConfig) (a1 : RegArgs)
    (rest : List RegArgs) :
    (runCalls env rest (get_metrics_registry env a1 none).2 =
      (rest.map fun _ => (get_metrics_registry env a1 none).1,
        (get_metrics_registry env a1 none).2)) ∧
    (get_metrics_registry env a1 none).2 =
      some (get_metrics_registry env a1 none).1 ∧
    (get_metrics_registry env a1 none).1.namespc =
      a1.namespc.getD (env.nsVar.getD "") ∧
    (get_metrics_registry env a1 none).1.histogram_buckets =
      a1.histogram_buckets.getD defaultHistogramBuckets ∧
    (get_metrics_registry env a1 none).1.response_size_buckets =
      a1.response_size_buckets.getD defaultResponseSizeBuckets ∧
    (get_metrics_registry env a1 none).1.app_name =
      a1.app_name.getD (env.appNameVar.getD "") ∧
    (get_metrics_registry env a1 none).1.app_version =
      a1.app_version.getD (env.appVersionVar.getD "") := by
  refine ⟨?_, rfl, rfl, rfl, rfl, rfl, rfl⟩
  exact runCalls_saturated env rest _

/-! ## C5 -/

/-- C5: the code diverges from the specified fail-fast behavior. The bucket
list [-1, 1] is ascending but contains a non-positive bound, hence is
invalid in the sense of the spec, yet RLMetrics construction performs no
bucket validation at all and stores the list unchanged for both histograms
instead of raising. -/
theorem C5_no_bucket_validation :
    ¬ validBuckets [(-1 : ℚ), 1] ∧
    (mkRLMetrics "" (some [(-1 : ℚ), 1]) (some [(-1 : ℚ), 1]) "" "").histogram_buckets
      = [(-1 : ℚ), 1] ∧
    (mkRLMetrics "" (some [(-1 : ℚ), 1]) (some [(-1 : ℚ), 1]) "" "").response_size_buckets
      = [(-1 : ℚ), 1] := by
  refine ⟨?_, rfl, rfl⟩
  intro hv
  have := hv.2 (-1) (by simp)
  norm_num at this

/-! ## C6 -/

/-- C6: whatever the failure behavior of the underlying store mutations,
observe_request returns normally: a failure is recorded in the logged field
(exactly when a reached mutation fails) and discarded, the mutations after
the failing one are skipped, and what the middleware hands back to the
framework is completely independent of the mutation behavior (FastAPI
returns exactly the call_next outcome, Flask always returns the response). -/
theorem C6_observe_never_propagates :
    (∀ ep norm beh req (d : ℚ) outcome,
      (fastapiDispatch ep norm beh req d outcome).response = outcome) ∧
    (∀ ep norm beh (d : ℚ) req resp,
      (flaskProcess ep norm beh d req resp).response = Except.ok resp) ∧
    (∀ latR cntR szR m p (d : ℚ) (s : ℤ) rs,
      (observe_request latR cntR szR m p d s rs).logged = none ↔
        latR = none ∧ cntR = none ∧ (rs = none ∨ szR = none)) ∧
    (∀ latR cntR szR m p (d : ℚ) (s : ℤ) rs e, latR = some e →
      (observe_request latR cntR szR m p d s rs).logged = some e ∧
      (observe_request latR cntR szR m p d s rs).events = []) ∧
    (∀ cntR szR m p (d : ℚ) (s : ℤ) rs e, cntR = some e →
      (observe_request none cntR szR m p d s rs).logged = some e ∧
      (observe_request none cntR szR m p d s rs).events =
        [MetricEvent.observeLatency m p d]) := by
  refine ⟨?_, ?_, ?_, ?_, ?_⟩
  · intro ep norm beh req d outcome
    unfold fastapiDispatch
    split
    · rfl
    · cases outcome <;> rfl
  · intro ep norm beh d req resp
    unfold flaskProcess flaskAfter
    simp only
    split
    · rfl
    · split <;> rfl
  · intro latR cntR szR m p d s rs
    cases latR <;> cases cntR <;> cases szR <;> cases rs <;>
      simp [observe_request]
  · intro latR cntR szR m p d s rs e he
    subst he
    cases cntR <;> cases szR <;> cases rs <;> simp [observe_request]
  · intro cntR szR m p d s rs e he
    subst he
    cases szR <;> cases rs <;> simp [observe_request]

/-- C6 witness: a failing latency mutation is caught, logged and discarded
at a concrete input, and a concrete FastAPI dispatch hands the call_next
outcome through unchanged. -/
theorem C6_observe_never_propagates_witness :
    ((observe_request (some "boom") none none "GET" "/a" 1 200 none).logged =
      some "boom" ∧
     (observe_request (some "boom") none none "GET" "/a" 1 200 none).events = []) ∧
    (fastapiDispatch defaultFastapiExcludes none behOk ⟨"GET", "/a"⟩ 1
        (Except.error "crash")).response = Except.error "crash" :=
  ⟨C6_observe_never_propagates.2.2.2.1 (some "boom") none none "GET" "/a" 1 200
      none "boom" rfl,
   C6_observe_never_propagates.1 defaultFastapiExcludes none behOk
      ⟨"GET", "/a"⟩ 1 (Except.error "crash")⟩

/-! ## C9 -/

theorem getD_zipWith_obs (v : ℚ) :
    ∀ (bs : List ℚ) (cs : List ℕ) (i : ℕ), i < bs.length →
      cs.length = bs.length →
      (List.zipWith (fun b c => if v ≤ b then c + 1 else c) bs cs).getD i 0 =
        if v ≤ bs.getD i 0 then cs.getD i 0 + 1 else cs.getD i 0 := by
  intro bs
  induction bs with
  | nil => intro cs i hi _; simp at hi
  | cons b bs ih =>
      intro cs i hi hlen
      cases cs with
      | nil => simp at hlen
      | cons c cs =>
          cases i with
          | zero => simp
          | succ j =>
              simp only [List.zipWith, List.getD_cons_succ]
              exact ih cs j (by simpa using hi) (by simpa using hlen)

/-- C9: one observation against a histogram with ascending configured bounds
increments the cumulative count of exactly those buckets whose bound is at
least the observed value, increments the implicit +infinity bucket, and adds
the value to the running sum, leaving the bounds and the count-list length
unchanged. -/
theorem C9_histogram_accumulation (h : Histogram) (v : ℚ)
    (_hasc : h.buckets.Chain' (· < ·))
    (hlen : h.counts.length = h.buckets.length) :
    (h.observe v).buckets = h.buckets ∧
    (h.observe v).counts.length = h.buckets.length ∧
    (∀ i, i < h.buckets.length →
      (h.observe v).counts.getD i 0 =
        if v ≤ h.buckets.getD i 0 then h.counts.getD i 0 + 1
        else h.counts.getD i 0) ∧
    (h.observe v).infCount = h.infCount + 1 ∧
    (h.observe v).sum = h.sum + v := by
  refine ⟨rfl, ?_, ?_, rfl, rfl⟩
  · simp [Histogram.observe, hlen]
  · intro i hi
    exact getD_zipWith_obs v h.buckets h.counts i hi hlen

/-- C9 witness: observing 0.03 against buckets [0.01, 0.05, 0.1] leaves the
0.01 bucket count at 0 and raises the 0.05 count, the 0.1 count and the
+infinity count to 1, as the theorem instantiated at the fresh histogram
states. -/
theorem C9_histogram_accumulation_witness :
    ((Histogram.fresh [(0.01 : ℚ), 0.05, 0.1]).observe 0.03).counts.getD 0 0 =
      (if (0.03 : ℚ) ≤ (0.01 : ℚ) then
        (Histogram.fresh [(0.01 : ℚ), 0.05, 0.1]).counts.getD 0 0 + 1
      else (Histogram.fresh [(0.01 : ℚ), 0.05, 0.1]).counts.getD 0 0) ∧
    ((Histogram.fresh [(0.01 : ℚ), 0.05, 0.1]).observe 0.03).infCount =
      (Histogram.fresh [(0.01 : ℚ), 0.05, 0.1]).infCount + 1 ∧
    ((Histogram.fresh [(0.01 : ℚ), 0.05, 0.1]).observe 0.03).counts = [0, 1, 1] ∧
    ¬ ((0.03 : ℚ) ≤ 0.01) ∧ (0.03 : ℚ) ≤ 0.05 ∧ (0.03 : ℚ) ≤ 0.1 :=
  ⟨(C9_histogram_accumulation (Histogram.fresh [(0.01 : ℚ), 0.05, 0.1]) 0.03
      (by norm_num [Histogram.fresh]) (by rfl)).2.2.1 0
      (by norm_num [Histogram.fresh]),
   (C9_histogram_accumulation (Histogram.fresh [(0.01 : ℚ), 0.05, 0.1]) 0.03
      (by norm_num [Histogram.fresh]) (by rfl)).2.2.2.1,
   by norm_num [Histogram.fresh, Histogram.observe],
   by norm_num, by norm_num, by norm_num⟩


/-! ## C10 -/

/-- C10: a call of observe_request without a response size leaves the
response-size histograms and the in-progress gauges of the store completely
unchanged and mutates only the latency histogram at (method, path) and the
request counter at (method, path, stringified status, error type); the size
histogram is observed exactly when a response size is supplied, as one
further event after the two always-present mutations. -/
theorem C10_size_frame (st : MetricsState) (m p : String) (d : ℚ) (s : ℤ) :
    (applyEvents st (observe_request none none none m p d s none).events).sizeHist
      = st.sizeHist ∧
    (applyEvents st (observe_request none none none m p d s none).events).inProgress
      = st.inProgress ∧
    (∀ k, k ≠ (m, p) →
      (applyEvents st (observe_request none none none m p d s none).events).latency k
        = st.latency k) ∧
    (applyEvents st (observe_request none none none m p d s none).events).latency (m, p)
      = (st.latency (m, p)).observe d ∧
    (∀ k, k ≠ (m, p, toString s, error_type s) →
      (applyEvents st (observe_request none none none m p d s none).events).counters k
        = st.counters k) ∧
    (applyEvents st (observe_request none none none m p d s none).events).counters
        (m, p, toString s, error_type s)
      = st.counters (m, p, toString s, error_type s) + 1 ∧
    (∀ n : ℤ, (observe_request none none none m p d s (some n)).events =
      (observe_request none none none m p d s none).events ++
        [MetricEvent.observeSize m p (n : ℚ)]) := by
  refine ⟨rfl, rfl, ?_, ?_, ?_, ?_, ?_⟩
  · intro k hk
    simp [observe_request, applyEvents, applyEvent, Function.update_noteq hk]
  · simp [observe_request, applyEvents, applyEvent]
  · intro k hk
    simp [observe_request, applyEvents, applyEvent, Function.update_noteq hk]
  · simp [observe_request, applyEvents, applyEvent]
  · intro n
    simp [observe_request]

/-- C10 witness: the frame property instantiated at the all-zero store for a
concrete request, with the unrelated label combinations named explicitly. -/
theorem C10_size_frame_witness :
    (applyEvents stZero (observe_request none none none "GET" "/a" 1 200 none).events).sizeHist
      = stZero.sizeHist ∧
    (applyEvents stZero (observe_request none none none "GET" "/a" 1 200 none).events).latency
        ("POST", "/b")
      = stZero.latency ("POST", "/b") ∧
    (applyEvents stZero (observe_request none none none "GET" "/a" 1 200 none).events).counters
        ("GET", "/a", "200", "client_error")
      = stZero.counters ("GET", "/a", "200", "client_error") :=
  ⟨(C10_size_frame stZero "GET" "/a" 1 200).1,
   (C10_size_frame stZero "GET" "/a" 1 200).2.2.1 ("POST", "/b") (by decide),
   (C10_size_frame stZero "GET" "/a" 1 200).2.2.2.2.1
      ("GET", "/a", "200", "client_error") (by decide)⟩


/-! ## C1 -/

/-- C1 counterexample: the Flask adapter checks the exclusion list only in
the after_request handler, after the in-progress gauge has already been
incremented in before_request and decremented again; a request to the
default-excluded path /health therefore performs two in-progress gauge
mutations, not zero. -/
theorem C1_flask_excluded_gauge_mutation :
    "/health" ∈ defaultFlaskExcludes ∧
    (flaskProcess defaultFlaskExcludes none behOk 1 ⟨"GET", "/health"⟩
        ⟨200, none, 0⟩).events =
      [MetricEvent.incInProgress "GET", MetricEvent.decInProgress "GET"] ∧
    (flaskProcess defaultFlaskExcludes none behOk 1 ⟨"GET", "/health"⟩
        ⟨200, none, 0⟩).events ≠ [] := by
  refine ⟨by decide, ?_, ?_⟩ <;> decide

/-- C1 (amended): a request to an excluded path produces zero metric
mutations in the FastAPI adapter; in the Flask adapter it produces no
observation mutation (no latency, counter or size event) but still
increments and decrements the in-progress gauge once each. -/
theorem C1_exclusion (ep : List String)
    (norm : Option (String → Except String String)) (beh : MutBeh)
    (req : HttpRequest) (d : ℚ) :
    (∀ outcome, req.path ∈ ep →
      (fastapiDispatch ep norm beh req d outcome).events = []) ∧
    (∀ resp : FLResponse, (normalizeStep norm req.path).1 ∈ ep →
      (flaskProcess ep norm beh d req resp).events =
        [MetricEvent.incInProgress req.method,
         MetricEvent.decInProgress req.method]) := by
  constructor
  · intro outcome hmem
    simp [fastapiDispatch, hmem]
  · intro resp hmem
    simp [flaskProcess, flaskAfter, hmem]

/-- C1 witness: the amended statement instantiated at concrete excluded
requests against the default exclusion lists of the two adapters. -/
theorem C1_exclusion_witness :
    (fastapiDispatch defaultFastapiExcludes none behOk ⟨"GET", "/metrics"⟩ 1
        (Except.ok ⟨200, none⟩)).events = [] ∧
    (flaskProcess defaultFlaskExcludes none behOk 1 ⟨"POST", "/healthz"⟩
        ⟨200, none, 0⟩).events =
      [MetricEvent.incInProgress "POST", MetricEvent.decInProgress "POST"] :=
  ⟨(C1_exclusion defaultFastapiExcludes none behOk ⟨"GET", "/metrics"⟩ 1).1
      (Except.ok ⟨200, none⟩) (by decide),
   (C1_exclusion defaultFlaskExcludes none behOk ⟨"POST", "/healthz"⟩ 1).2
      ⟨200, none, 0⟩ (by decide)⟩


/-! ## C2 -/

theorem observe_request_no_gauge_events (m : String)
    (latR cntR szR : Option String) (m' p : String) (d : ℚ) (s : ℤ)
    (rs : Option ℤ) :
    (observe_request latR cntR szR m' p d s rs).events.countP (isInc m) = 0 ∧
    (observe_request latR cntR szR m' p d s rs).events.countP (isDec m) = 0 := by
  cases latR <;> cases cntR <;> cases szR <;> cases rs <;>
    simp [observe_request, isInc, isDec]

theorem gaugeValue_eq_counts (m : String) :
    ∀ evs, gaugeValue m evs = (incCount m evs : ℤ) - (decCount m evs : ℤ) := by
  intro evs
  induction evs with
  | nil => simp [gaugeValue, incCount, decCount]
  | cons e evs ih =>
      have hnot : isInc m e = false ∨ isDec m e = false := by
        cases e <;> simp [isInc, isDec]
      simp only [gaugeValue, ih, incCount, decCount, List.countP_cons]
      rcases hnot with h | h <;> simp [h] <;> split_ifs <;> omega

/-- C2: both adapters perform exactly one in-progress increment and one
decrement per non-excluded request on every exit path (the FastAPI quantifier
covers both the normal and the call_next-exception outcome; the Flask
statement holds for every response the framework hands to after_request), and
for any event trace the gauge value for a method is the number of its
increments minus the number of its decrements, never negative on any prefix
when the calls are properly paired. -/
theorem C2_in_progress_pairing :
    (∀ ep norm beh req (d : ℚ) outcome, req.path ∉ ep →
      incCount req.method (fastapiDispatch ep norm beh req d outcome).events = 1 ∧
      decCount req.method (fastapiDispatch ep norm beh req d outcome).events = 1) ∧
    (∀ ep norm beh (d : ℚ) req resp,
      incCount req.method (flaskProcess ep norm beh d req resp).events = 1 ∧
      decCount req.method (flaskProcess ep norm beh d req resp).events = 1) ∧
    (∀ m evs, gaugeValue m evs = (incCount m evs : ℤ) - (decCount m evs : ℤ)) ∧
    (∀ m evs, paired m evs → ∀ n, 0 ≤ gaugeValue m (evs.take n)) := by
  refine ⟨?_, ?_, fun m evs => gaugeValue_eq_counts m evs, ?_⟩
  · intro ep norm beh req d outcome hmem
    unfold fastapiDispatch
    rw [if_neg hmem]
    cases outcome with
    | error e => simp [incCount, decCount, isInc, isDec]
    | ok resp =>
        have h := observe_request_no_gauge_events req.method beh.latR beh.cntR
          beh.szR req.method (normalizeStep norm req.path).1 d resp.status_code
          (parseContentLength resp.contentLength)
        simp [incCount, decCount, List.countP_cons, List.countP_append,
          h.1, h.2, isInc, isDec]
  · intro ep norm beh d req resp
    have h := observe_request_no_gauge_events req.method beh.latR beh.cntR
      beh.szR req.method (normalizeStep norm req.path).1 d resp.status_code
      (flaskResponseSize resp.contentLength resp.dataLen)
    by_cases hmem : (normalizeStep norm req.path).1 ∈ ep <;>
      simp [flaskProcess, flaskAfter, hmem, incCount, decCount,
        List.countP_cons, h.1, h.2, isInc, isDec]
  · intro m evs hp n
    by_cases hn : n ≤ evs.length
    · have := hp n hn
      rw [gaugeValue_eq_counts]
      omega
    · have hev : evs.take n = evs := List.take_of_length_le (by omega)
      have := hp evs.length le_rfl
      rw [List.take_length] at this
      rw [hev, gaugeValue_eq_counts]
      omega

/-- C2 witness: the pairing instantiated at a concrete non-excluded FastAPI
request whose handler raises, a concrete Flask request, and the
nonnegativity of the gauge on a prefix of a concrete properly paired trace. -/
theorem C2_in_progress_pairing_witness :
    (incCount "GET" (fastapiDispatch defaultFastapiExcludes none behOk
        ⟨"GET", "/api"⟩ 1 (Except.error "crash")).events = 1 ∧
     decCount "GET" (fastapiDispatch defaultFastapiExcludes none behOk
        ⟨"GET", "/api"⟩ 1 (Except.error "crash")).events = 1) ∧
    (incCount "POST" (flaskProcess defaultFlaskExcludes none behOk 1
        ⟨"POST", "/api"⟩ ⟨200, none, 0⟩).events = 1) ∧
    0 ≤ gaugeValue "GET"
        ([MetricEvent.incInProgress "GET", MetricEvent.decInProgress "GET"].take 1) :=
  ⟨C2_in_progress_pairing.1 defaultFastapiExcludes none behOk ⟨"GET", "/api"⟩ 1
      (Except.error "crash") (by decide),
   (C2_in_progress_pairing.2.1 defaultFlaskExcludes none behOk 1
      ⟨"POST", "/api"⟩ ⟨200, none, 0⟩).1,
   C2_in_progress_pairing.2.2.2 "GET"
      [MetricEvent.incInProgress "GET", MetricEvent.decInProgress "GET"]
      (by
        intro n hn
        simp only [List.length_cons, List.length_nil] at hn
        interval_cases n <;> decide) 1⟩


/-! ## C8 -/

/-- C8 counterexample: in the Flask adapter the normalizer runs before the
exclusion check, so when a normalizer raises on the default-excluded raw path
/health, the fallback path is excluded and the request is not recorded at
all (no latency, counter or size event), although the warning is logged —
contradicting the claim that every request whose normalizer raises is still
fully recorded. -/
theorem C8_flask_excluded_fallback_not_recorded :
    (flaskProcess defaultFlaskExcludes (some fun _ => Except.error "boom")
        behOk 1 ⟨"GET", "/health"⟩ ⟨200, none, 0⟩).events.countP isObservation
      = 0 ∧
    (flaskProcess defaultFlaskExcludes (some fun _ => Except.error "boom")
        behOk 1 ⟨"GET", "/health"⟩ ⟨200, none, 0⟩).warnings ≠ [] := by
  constructor <;> decide

/-- C8 (amended): for every request whose normalizer raises and whose
original path is not in the exclusion set, both adapters fall back to the
original unnormalized path for all metric labels, log the normalizer
warning, and still record the request in full: the latency observation, the
counter increment and, when a response size is available, the size
observation all happen with the raw path. -/
theorem C8_normalizer_fallback (ep : List String)
    (f : String → Except String String) (req : HttpRequest) (d : ℚ)
    (e : String) (hf : f req.path = Except.error e) (hex : req.path ∉ ep) :
    (∀ resp : FAResponse,
      fastapiDispatch ep (some f) behOk req d (Except.ok resp) =
        { events := MetricEvent.incInProgress req.method ::
            ((observe_request none none none req.method req.path d
              resp.status_code (parseContentLength resp.contentLength)).events ++
             [MetricEvent.decInProgress req.method])
          warnings := ["Path normalizer failed for " ++ req.path ++ ": " ++ e]
          errorsLogged := []
          response := Except.ok resp }) ∧
    (∀ resp : FLResponse,
      flaskProcess ep (some f) behOk d req resp =
        { events := MetricEvent.incInProgress req.method ::
            MetricEvent.decInProgress req.method ::
            (observe_request none none none req.method req.path d
              resp.status_code
              (flaskResponseSize resp.contentLength resp.dataLen)).events
          warnings := ["Path normalizer failed for " ++ req.path ++ ": " ++ e]
          errorsLogged := []
          response := Except.ok resp }) := by
  have hns : normalizeStep (some f) req.path =
      (req.path, ["Path normalizer failed for " ++ req.path ++ ": " ++ e]) := by
    simp [normalizeStep, hf]
  have hlog : ∀ (p : String) (s : ℤ) (rs : Option ℤ),
      (observe_request none none none req.method p d s rs).logged = none := by
    intro p s rs; cases rs <;> simp [observe_request]
  constructor
  · intro resp
    simp [fastapiDispatch, hex, hns, behOk, hlog]
  · intro resp
    simp [flaskProcess, flaskAfter, hns, hex, behOk, hlog]

/-- C8 witness: a normalizer that raises on the non-excluded path /weird
leaves /weird as the label path, logs the warning, and the request is still
fully recorded by both adapters. -/
theorem C8_normalizer_fallback_witness :
    (fastapiDispatch defaultFastapiExcludes
        (some fun _ => Except.error "boom") behOk ⟨"GET", "/weird"⟩ 1
        (Except.ok ⟨200, some "42"⟩) =
      { events := [MetricEvent.incInProgress "GET",
          MetricEvent.observeLatency "GET" "/weird" 1,
          MetricEvent.incCounter "GET" "/weird" "200" "none",
          MetricEvent.observeSize "GET" "/weird" 42,
          MetricEvent.decInProgress "GET"]
        warnings := ["Path normalizer failed for /weird: boom"]
        errorsLogged := []
        response := Except.ok ⟨200, some "42"⟩ }) ∧
    (flaskProcess defaultFlaskExcludes (some fun _ => Except.error "boom")
        behOk 1 ⟨"GET", "/weird"⟩ ⟨200, none, 7⟩ =
      { events := [MetricEvent.incInProgress "GET",
          MetricEvent.decInProgress "GET",
          MetricEvent.observeLatency "GET" "/weird" 1,
          MetricEvent.incCounter "GET" "/weird" "200" "none",
          MetricEvent.observeSize "GET" "/weird" 7]
        warnings := ["Path normalizer failed for /weird: boom"]
        errorsLogged := []
        response := Except.ok ⟨200, none, 7⟩ }) := by
  have h := C8_normalizer_fallback defaultFlaskExcludes
    (fun _ => Except.error "boom") ⟨"GET", "/weird"⟩ 1 "boom" rfl (by decide)
  have h2 := C8_normalizer_fallback defaultFastapiExcludes
    (fun _ => Except.error "boom") ⟨"GET", "/weird"⟩ 1 "boom" rfl (by decide)
  refine ⟨?_, ?_⟩
  · rw [h2.1 ⟨200, some "42"⟩]
    rfl
  · rw [h.2 ⟨200, none, 7⟩]
    rfl


/-! ## C7 -/

theorem subIdAux_true_of_not_digitStart (l : List Char)
    (h : digitStart l = false) : subIdAux true l = subIdAux false l := by
  cases l with
  | nil => rfl
  | cons c r =>
      have hc : c.isDigit = false := by simpa [digitStart] using h
      simp [subIdAux, hc]

theorem subIdAux_skip_digits :
    ∀ (ds rest : List Char), (∀ c ∈ ds, c.isDigit = true) →
      digitStart rest = false →
      subIdAux true (ds ++ rest) = subIdAux false rest := by
  intro ds
  induction ds with
  | nil => intro rest _ hr; simpa using subIdAux_true_of_not_digitStart rest hr
  | cons d ds ih =>
      intro rest hds hr
      have hd : d.isDigit = true := hds d (List.mem_cons_self d ds)
      simp only [List.cons_append, subIdAux, hd, Bool.and_self, if_pos]
      exact ih rest (fun c hc => hds c (List.mem_cons_of_mem d hc)) hr

theorem subUuidAux_skip :
    ∀ (u rest : List Char) (n : ℕ), u.length = n →
      subUuidAux n (u ++ rest) = subUuidAux 0 rest := by
  intro u
  induction u with
  | nil => intro rest n hn; simp at hn; subst hn; rfl
  | cons c u ih =>
      intro rest n hn
      cases n with
      | zero => simp at hn
      | succ k =>
          simp only [List.length_cons, Nat.succ.injEq] at hn
          simpa [subUuidAux] using ih rest k hn

theorem takeWhile_append_all (p : Char → Bool) :
    ∀ (l1 l2 : List Char), (∀ c ∈ l1, p c = true) →
      (l1 ++ l2).takeWhile p = l1 ++ l2.takeWhile p := by
  intro l1
  induction l1 with
  | nil => intro l2 _; rfl
  | cons c l1 ih =>
      intro l2 h
      have hc : p c = true := h c (List.mem_cons_self c l1)
      simp [List.takeWhile_cons, hc, ih l2 (fun x hx => h x (List.mem_cons_of_mem c hx))]

theorem dropWhile_append_all (p : Char → Bool) :
    ∀ (l1 l2 : List Char), (∀ c ∈ l1, p c = true) →
      (l1 ++ l2).dropWhile p = l2.dropWhile p := by
  intro l1
  induction l1 with
  | nil => intro l2 _; rfl
  | cons c l1 ih =>
      intro l2 h
      have hc : p c = true := h c (List.mem_cons_self c l1)
      simp [List.dropWhile_cons, hc, ih l2 (fun x hx => h x (List.mem_cons_of_mem c hx))]

/-- C7 counterexample: the segment 123e4567-e89b-12d3-a456-426614174000 is
UUID-shaped, but because the numeric pass runs first and replaces the
digit run 123 directly after the slash, the UUID pass no longer matches:
the code produces /:ide4567-e89b-12d3-a456-426614174000/x rather than the
/:uuid/x the claim describes; likewise the non-purely-numeric segment 12x
is partially rewritten to :idx rather than left alone. -/
theorem C7_ordered_passes_counterexample :
    uuidShape (String.toList "123e4567-e89b-12d3-a456-426614174000") = true ∧
    normalize_api_paths "/123e4567-e89b-12d3-a456-426614174000/x" =
      "/:ide4567-e89b-12d3-a456-426614174000/x" ∧
    normalize_api_paths "/123e4567-e89b-12d3-a456-426614174000/x" ≠ "/:uuid/x" ∧
    normalize_api_paths "/a/12x" = "/a/:idx" := by
  refine ⟨by decide, by decide, by decide, by decide⟩

/-- C7 (amended): normalize_api_paths is three ordered passes, each on the
already-substituted string. The first pass replaces every maximal run of
digits that directly follows a slash with :id, also when the segment
continues with non-digits (so only the digit prefix of such a segment is
replaced). The second pass replaces a slash followed by 36 characters of
UUID shape with /:uuid — which after the first pass can only fire on UUID
segments not beginning with a digit. The third pass replaces the segment
after the last slash with :filename when it matches stem-dot-extension.
The docstring examples behave as documented. -/
theorem C7_normalize_api_paths (ds u rest pre seg : List Char) :
    (ds ≠ [] → (∀ c ∈ ds, c.isDigit = true) → digitStart rest = false →
      subIdAux false ('/' :: (ds ++ rest)) =
        '/' :: ':' :: 'i' :: 'd' :: subIdAux false rest) ∧
    (uuidShape u = true →
      subUuidAux 0 ('/' :: (u ++ rest)) =
        '/' :: ':' :: 'u' :: 'u' :: 'i' :: 'd' :: subUuidAux 0 rest) ∧
    ((∀ c ∈ seg, (c ≠ '/' : Bool) = true) → filenameSeg seg = true →
      subFilename (pre ++ '/' :: seg) =
        pre ++ ('/' :: ':' :: 'f' :: 'i' :: 'l' :: 'e' :: 'n' :: 'a' :: 'm' :: 'e' :: [])) ∧
    normalize_api_paths "/api/users/123" = "/api/users/:id" ∧
    normalize_api_paths "/api/posts/456/comments" = "/api/posts/:id/comments" ∧
    normalize_api_paths "/files/abc-def-123.pdf" = "/files/:filename" ∧
    normalize_api_paths "/x/ab3e4567-e89b-12d3-a456-426614174000" = "/x/:uuid" := by
  refine ⟨?_, ?_, ?_, by decide, by decide, by decide, by decide⟩
  · intro hne hds hr
    cases ds with
    | nil => exact absurd rfl hne
    | cons d ds' =>
        have hd : d.isDigit = true := hds d (List.mem_cons_self d ds')
        simp only [List.cons_append, subIdAux, digitStart, hd, Bool.and_true,
          beq_self_eq_true, if_pos, Bool.false_and, Bool.and_false,
          Bool.false_eq_true, if_false]
        simpa using subIdAux_skip_digits ds' rest
          (fun c hc => hds c (List.mem_cons_of_mem d hc)) hr
  · intro hu
    have h36 : u.length = 36 := by
      have := hu
      simp only [uuidShape, Bool.and_eq_true, beq_iff_eq] at this
      exact this.1
    have htake : (u ++ rest).take 36 = u := List.take_left' h36
    simp only [subUuidAux, htake, hu, beq_self_eq_true, Bool.and_true, if_pos]
    exact congrArg (fun t => '/' :: ':' :: 'u' :: 'u' :: 'i' :: 'd' :: t)
      (subUuidAux_skip u rest 36 h36)
  · intro hseg hfile
    unfold subFilename
    have hrev : (pre ++ '/' :: seg).reverse =
        seg.reverse ++ ('/' :: pre.reverse) := by
      simp [List.reverse_append]
    have hall : ∀ c ∈ seg.reverse, (fun c => (c ≠ '/' : Bool)) c = true := by
      intro c hc
      exact hseg c (List.mem_reverse.mp hc)
    have htw : ((pre ++ '/' :: seg).reverse.takeWhile fun c => (c ≠ '/' : Bool))
        = seg.reverse := by
      rw [hrev, takeWhile_append_all _ _ _ hall]
      simp [List.takeWhile_cons]
    have hdw : ((pre ++ '/' :: seg).reverse.dropWhile fun c => (c ≠ '/' : Bool))
        = '/' :: pre.reverse := by
      rw [hrev, dropWhile_append_all _ _ _ hall]
      simp [List.dropWhile_cons]
    simp only [htw, hdw, List.reverse_reverse, hfile, if_pos]

/-- C7 witness: the three pass characterizations instantiated at concrete
inputs: /12x gets only its digit prefix replaced, a letter-leading UUID
segment is replaced by :uuid, and a trailing report.pdf becomes :filename. -/
theorem C7_normalize_api_paths_witness :
    subIdAux false ('/' :: (['1', '2'] ++ ['x'])) =
      '/' :: ':' :: 'i' :: 'd' :: subIdAux false ['x'] ∧
    subUuidAux 0 ('/' :: (String.toList "ab3e4567-e89b-12d3-a456-426614174000" ++ [])) =
      '/' :: ':' :: 'u' :: 'u' :: 'i' :: 'd' :: subUuidAux 0 [] ∧
    subFilename (String.toList "/files" ++ '/' :: String.toList "report.pdf") =
      String.toList "/files" ++
        ('/' :: ':' :: 'f' :: 'i' :: 'l' :: 'e' :: 'n' :: 'a' :: 'm' :: 'e' :: []) :=
  ⟨(C7_normalize_api_paths ['1', '2']
      (String.toList "ab3e4567-e89b-12d3-a456-426614174000") ['x']
      (String.toList "/files") (String.toList "report.pdf")).1
        (by decide) (by decide) (by decide),
   (C7_normalize_api_paths ['1', '2']
      (String.toList "ab3e4567-e89b-12d3-a456-426614174000") []
      (String.toList "/files") (String.toList "report.pdf")).2.1 (by decide),
   (C7_normalize_api_paths ['1', '2']
      (String.toList "ab3e4567-e89b-12d3-a456-426614174000") ['x']
      (String.toList "/files") (String.toList "report.pdf")).2.2.1
        (by decide) (by decide)⟩

end RLAutoscale
